import Mathlib

/-!
Shallow embedding of the order-execution and position-management core of the
coin_trading repository. Python floats are modelled as rationals, broker
calls as explicit environment records, and exceptions as Option/Except.
-/

namespace CoinTrading

/-- Embedding of compute_initial_bracket from src/trader/risk_manager.py.
The Python function raises ValueError on negative inputs or an unknown side;
this is modelled with Except. -/

def compute_initial_bracket (entry atr : ℚ) (side : String) (k_sl rr : ℚ) :
    Except String (ℚ × ℚ) :=
  if atr < 0 ∨ k_sl < 0 ∨ rr < 0 then
    .error "atr, k_sl, rr must be non-negative"
  else
    let distance := k_sl * atr
    if side = "long" then
      .ok (entry - distance, entry + rr * distance)
    else if side = "short" then
      .ok (entry + distance, entry - rr * distance)
    else
      .error "side must be long or short"

/-- Embedding of TradeExecutor._is_slippage_within_limit from
src/trader/trade_executor.py. The orderbook ticker is passed as an optional
pair (bidPrice, askPrice); none models the fetch raising an exception. -/

def is_slippage_within_limit (maxSlippageBps : ℤ) (ticker : Option (ℚ × ℚ)) : Bool :=
  let maxBps := max 0 maxSlippageBps
  if maxBps ≤ 0 then true
  else
    match ticker with
    | none => true
    | some (bid, ask) =>
      if bid ≤ 0 ∨ ask ≤ 0 then true
      else
        let mid := (bid + ask) / 2
        let spreadBps := (ask - bid) / mid * 10000
        decide (spreadBps ≤ (maxBps : ℚ))

/-- One raw fill entry of a broker order response. commissionAsset is none
when the response carries no commissionAsset key for the fill. -/

structure Fill where
  price : ℚ
  qty : ℚ
  commission : ℚ
  commissionAsset : Option String
deriving DecidableEq, Repr

/-- A broker order response, with the fields read by TradeExecutor.
Absent numeric fields are the Python defaults (0.0), absent fills are []. -/

structure Order where
  status : String
  clientOrderId : Option String := none
  origClientOrderId : Option String := none
  orderId : Option Nat := none
  executedQty : ℚ := 0
  cummulativeQuoteQty : ℚ := 0
  fills : List Fill := []
deriving DecidableEq, Repr

/-- Accumulating loop over fills in TradeExecutor._compute_fills:
state is (total_quote, total_base, total_fee, fee_asset). -/

def fillsLoop : List Fill → ℚ → ℚ → ℚ → Option String → ℚ × ℚ × ℚ × Option String
  | [], tq, tb, tf, fa => (tq, tb, tf, fa)
  | f :: rest, tq, tb, tf, fa =>
    fillsLoop rest (tq + f.price * f.qty) (tb + f.qty) (tf + f.commission)
      (match f.commissionAsset with
       | some a => some a
       | none => fa)

/-- Embedding of TradeExecutor._compute_fills from src/trader/trade_executor.py:
returns (avg_price, executed_qty, total_fee, fee_asset). -/

def compute_fills (resp : Order) : ℚ × ℚ × ℚ × Option String :=
  match resp.fills with
  | [] =>
    let executedQty := resp.executedQty
    let cummulativeQuote := resp.cummulativeQuoteQty
    let avgPrice := if executedQty > 0 then cummulativeQuote / executedQty else 0
    (avgPrice, executedQty, 0, none)
  | f :: rest =>
    let r := fillsLoop (f :: rest) 0 0 0 none
    let avgPrice := if r.2.1 > 0 then r.1 / r.2.1 else 0
    (avgPrice, r.2.1, r.2.2.1, r.2.2.2)

/-- Sum of price times qty over a fill list. -/

def sumQuote (fills : List Fill) : ℚ := (fills.map (fun f => f.price * f.qty)).sum

/-- Sum of qty over a fill list. -/

def sumQty (fills : List Fill) : ℚ := (fills.map (fun f => f.qty)).sum

/-- Sum of commission over a fill list. -/

def sumFee (fills : List Fill) : ℚ := (fills.map (fun f => f.commission)).sum

/-- Folding the fee-asset update of the Python loop: the final value is the
commissionAsset of the last fill that carries one, else the initial value. -/

def lastAsset (fills : List Fill) (fa : Option String) : Option String :=
  match fills with
  | [] => fa
  | f :: rest =>
    lastAsset rest
      (match f.commissionAsset with
       | some a => some a
       | none => fa)

/-- Modelled from the spec: the fee asset described in section 4.2 as the
first non-null commissionAsset of the fill list (the code instead keeps the
last one present); used only to compare spec words against the code. -/

def specFirstNonNullAsset (fills : List Fill) : Option String :=
  (fills.filterMap (fun f => f.commissionAsset)).head?

/-- Embedding of kelly_position_size from src/trader/position_sizer.py. -/

def kelly_position_size (capital win_rate avg_win avg_loss score max_score
    f_max pos_min pos_max : ℚ) : ℚ :=
  if capital ≤ 0 then 0
  else if avg_win ≤ 0 ∨ avg_loss ≤ 0 ∨ max_score ≤ 0 then 0
  else
    let p := max 0 (min 1 win_rate)
    let q := 1 - p
    let b := avg_win / avg_loss
    if b ≤ 0 then 0
    else
      let fStar := (b * p - q) / b
      let fStarClamped := max 0 (min fStar f_max)
      let confidence := min 1 (max 0 (|score| / max_score))
      let fraction := fStarClamped * confidence
      let fractionClamped := max pos_min (min fraction pos_max)
      capital * fractionClamped

/-- Embedding of PositionLeg from src/models.py; timestamps are integer
epoch seconds. -/

structure PositionLeg where
  timestamp : ℤ
  side : String
  qty : ℚ
  price : ℚ
  orderId : Option String := none
  reason : String := ""
deriving DecidableEq, Repr

/-- Embedding of Position from src/models.py. exitLegs embeds the
list stored in the partial_exits attribute. -/

structure Position where
  symbol : String
  legs : List PositionLeg
  exitLegs : List PositionLeg
  status : String
  entryTime : ℤ
  qty : ℚ
  entryPrice : ℚ
  stopPrice : ℚ
  trailingStopPrice : ℚ
  highestPrice : ℚ
  maxPyramidLegs : ℕ
  minAddInterval : ℤ
deriving DecidableEq, Repr

/-- Totals recomputed from the legs by Position._recalculate_totals:
result is (qty, entry_price), summing BUY legs only. -/

def recalcTotals (legs : List PositionLeg) : ℚ × ℚ :=
  if legs = [] then (0, 0)
  else
    let totalCost := ((legs.filter (fun l => l.side == "BUY")).map
      (fun l => l.qty * l.price)).sum
    let totalQty := ((legs.filter (fun l => l.side == "BUY")).map
      (fun l => l.qty)).sum
    if totalQty > 0 then (totalQty, totalCost / totalQty) else (0, 0)

/-- Application of _recalculate_totals to a position value. -/

def recalcPosition (p : Position) : Position :=
  let t := recalcTotals p.legs
  { p with qty := t.1, entryPrice := t.2 }

/-- Embedding of the Position constructor from src/models.py: the initial
leg is recorded and totals recomputed only when both qty and entry_price
are positive. -/

def mkPosition (symbol : String) (qty entryPrice stopPrice : ℚ) (openTime : ℤ) :
    Position :=
  let base : Position :=
    { symbol := symbol, legs := [], exitLegs := [], status := "ACTIVE",
      entryTime := openTime, qty := qty, entryPrice := entryPrice,
      stopPrice := stopPrice, trailingStopPrice := stopPrice,
      highestPrice := if entryPrice > 0 then entryPrice else 0,
      maxPyramidLegs := 3, minAddInterval := 3600 }
  if qty > 0 ∧ entryPrice > 0 then
    recalcPosition
      { base with legs := [{ timestamp := openTime, side := "BUY", qty := qty,
                             price := entryPrice, reason := "entry" }] }
  else base

/-- Embedding of Position.add_leg: append the leg and recompute totals. -/

def addLeg (p : Position) (leg : PositionLeg) : Position :=
  recalcPosition { p with legs := p.legs ++ [leg] }

/-- Embedding of Position.update_trailing_stop: raise the trailing stop only
when the new price is strictly higher. -/

def updateTrailingStop (p : Position) (newPrice : ℚ) : Position :=
  if newPrice > p.trailingStopPrice then { p with trailingStopPrice := newPrice }
  else p

/-- Embedding of Position.can_add_position. Python compares the seconds
component of the timedelta, which is the elapsed time modulo 86400 for
integer-second timestamps. -/

def canAddPosition (p : Position) (currentTime : ℤ) : Bool :=
  if p.maxPyramidLegs ≤ p.legs.length then false
  else
    match p.legs.getLast? with
    | none => true
    | some lastLeg =>
      if (currentTime - lastLeg.timestamp) % 86400 < p.minAddInterval then false
      else true

/-- Values held by a PositionAction metadata map. -/

inductive MetaVal where
  | num (q : ℚ)
  | str (s : String)
deriving DecidableEq, Repr

/-- Embedding of the PositionAction dataclass from src/models.py; the
qty_ratio attribute is embedded as qtyFrac. -/

structure StratAction where
  actionType : String
  qtyFrac : ℚ := 1
  price : Option ℚ := none
  reason : String := ""
  metadata : List (String × MetaVal) := []
deriving DecidableEq, Repr

/-! TrailingStopManager from src/trader/trailing_stop_manager.py; the config
constants are activation_profit = 2/100, atr_multiplier = 1, step_up = 1/100. -/

/-- Embedding of TrailingStopManager.should_activate_trailing. -/

def shouldActivateTrailing (p : Position) (currentPrice : ℚ) : Bool :=
  decide ((currentPrice - p.entryPrice) / p.entryPrice ≥ 2/100)

/-- Embedding of TrailingStopManager.update_trailing_stop: returns the
position with its highest_price possibly raised, together with the candidate
trailing stop value the method returns. -/

def tsmUpdateTrailingStop (p : Position) (currentPrice atr : ℚ) : Position × ℚ :=
  if ¬ shouldActivateTrailing p currentPrice then (p, p.trailingStopPrice)
  else
    let p' := if currentPrice > p.highestPrice
      then { p with highestPrice := currentPrice } else p
    let newTrail := p'.highestPrice * (1 - 1 * atr / currentPrice)
    if newTrail > p.trailingStopPrice then (p', newTrail)
    else (p', p.trailingStopPrice)

/-- Embedding of TrailingStopManager.should_update_trailing, tracking the
highest_price mutation performed by the inner update_trailing_stop call. -/

def shouldUpdateTrailing (p : Position) (currentPrice atr : ℚ) : Position × Bool :=
  if ¬ shouldActivateTrailing p currentPrice then (p, false)
  else
    let r := tsmUpdateTrailingStop p currentPrice atr
    (r.1, decide (r.2 > r.1.trailingStopPrice))

/-- Embedding of TrailingStopManager.get_trailing_update_action: when an
update is due, the action carries the recomputed trailing price. -/

def getTrailingUpdateAction (p : Position) (currentPrice atr : ℚ) :
    Position × Option ℚ :=
  let s := shouldUpdateTrailing p currentPrice atr
  if s.2 then
    let r := tsmUpdateTrailingStop s.1 currentPrice atr
    (r.1, some r.2)
  else (s.1, none)

/-- Embedding of LiveTrader._handle_trailing_stop_update from
src/live_trader_gpt.py: apply Position.update_trailing_stop to the action
price when one is present. -/

def handleTrailingStopUpdate (p : Position) (actPrice : Option ℚ) : Position :=
  match actPrice with
  | none => p
  | some np => updateTrailingStop p np

/-- One UPDATE_TRAIL evaluation of a cycle: the manager builds the action and
the live trader applies it to the position. -/

def trailEvalTick (p : Position) (currentPrice atr : ℚ) : Position :=
  let r := getTrailingUpdateAction p currentPrice atr
  handleTrailingStopUpdate r.1 r.2

/-- An event acting on the trailing stop: either a direct
Position.update_trailing_stop call or a full UPDATE_TRAIL evaluation. -/

inductive TrailEvent where
  | direct (newPrice : ℚ)
  | tick (currentPrice atr : ℚ)
deriving DecidableEq, Repr

/-- Step function over trailing-stop events. -/

def trailStep (p : Position) : TrailEvent → Position
  | .direct np => updateTrailingStop p np
  | .tick currentPrice atr => trailEvalTick p currentPrice atr

/-! PartialExitManager from src/trader/partial_exit_manager.py. -/

/-- One entry of the exit_levels table. -/

structure ExitLevel where
  profitPct : ℚ
  exitFrac : ℚ
  level : ℕ
deriving DecidableEq, Repr

/-- The exit_levels list configured in the PartialExitManager constructor. -/

def exitLevels : List ExitLevel :=
  [{ profitPct := 5/100, exitFrac := 3/10, level := 1 },
   { profitPct := 10/100, exitFrac := 3/10, level := 2 },
   { profitPct := 15/100, exitFrac := 4/10, level := 3 },
   { profitPct := 20/100, exitFrac := 3/10, level := 4 }]

/-- Character-wise prefix test, modelling the Python str.startswith call. -/

def strStartsWith (s pre : String) : Bool :=
  pre.data.isPrefixOf s.data

/-- Embedding of PartialExitManager._already_exited_at_level: a reason-tag
prefix lookup over the recorded partial-exit legs. -/

def alreadyExitedAtLevel (p : Position) (level : ℕ) : Bool :=
  p.exitLegs.any (fun leg =>
    strStartsWith leg.reason ("partial_exit_level_" ++ toString level))

/-- Embedding of PartialExitManager.should_partial_exit: the first level
whose profit threshold is reached and that was not already claimed. -/

def shouldPartialExitLevel (p : Position) (currentPrice : ℚ) : Option ExitLevel :=
  let unrealizedPct := (currentPrice - p.entryPrice) / p.entryPrice
  exitLevels.find? (fun lv =>
    decide (unrealizedPct ≥ lv.profitPct) && ! alreadyExitedAtLevel p lv.level)

/-- Embedding of PartialExitManager.get_partial_exit_action. The exit
quantity uses get_remaining_qty, which returns the qty attribute. -/

def getPartialExitAction (p : Position) (currentPrice : ℚ) : Option StratAction :=
  match shouldPartialExitLevel p currentPrice with
  | none => none
  | some lv =>
    let exitQty := p.qty * lv.exitFrac
    if exitQty ≤ 0 then none
    else
      some { actionType := "SELL_PARTIAL", qtyFrac := lv.exitFrac,
             reason := "partial_exit_level_" ++ toString lv.level,
             metadata := [("exit_level", .num lv.level), ("profit_pct", .num lv.profitPct),
                          ("exit_ratio", .num lv.exitFrac), ("exit_qty", .num exitQty),
                          ("current_price", .num currentPrice),
                          ("unrealized_pct", .num ((currentPrice - p.entryPrice) / p.entryPrice))] }

/-- Embedding of the partial_exits append performed by
LiveTrader._handle_partial_exit in src/live_trader_gpt.py. -/

def recordExitLeg (p : Position) (leg : PositionLeg) : Position :=
  { p with exitLegs := p.exitLegs ++ [leg] }

/-! PositionManager from src/trader/position_manager.py; pyramid_config has
min_profit_pct = 3/100, max_legs = 3, size_progression = [1, 7/10, 1/2]. -/

/-- Embedding of PositionManager.should_pyramid. -/

def shouldPyramid (p : Position) (now : ℤ) (currentPrice : ℚ) : Bool :=
  if ¬ canAddPosition p now then false
  else decide ((currentPrice - p.entryPrice) / p.entryPrice ≥ 3/100)

/-- Embedding of PositionManager.calculate_pyramid_size. -/

def calculatePyramidSize (p : Position) (baseSpend : ℚ) : ℚ :=
  let legCount := p.legs.length
  if 3 ≤ legCount then 0
  else baseSpend * ([(1 : ℚ), 7/10, 1/2].getD legCount 0)

/-- Embedding of PositionManager.get_pyramid_action. -/

def getPyramidAction (p : Position) (now : ℤ) (currentPrice baseSpend : ℚ) :
    Option StratAction :=
  if ¬ shouldPyramid p now currentPrice then none
  else
    let pyramidSize := calculatePyramidSize p baseSpend
    if pyramidSize ≤ 0 then none
    else
      some { actionType := "BUY_ADD", qtyFrac := 1/2, reason := "pyramiding",
             metadata := [("base_spend", .num baseSpend),
                          ("pyramid_size", .num pyramidSize)] }

/-- Embedding of ATRTrailingStopStrategy.get_position_action from
src/strategies/atr_trailing_stop_strategy.py, taking the latest close and
the latest atr value extracted from the market data frame. -/

def atrGetPositionAction (p : Position) (currentPrice atr atrMultiplier : ℚ) :
    Option StratAction :=
  if p.legs = [] then none
  else if atr ≤ 0 then none
  else
    let baseSpend := p.qty * p.entryPrice * (1/2)
    let unrealizedPct := (currentPrice - p.entryPrice) / p.entryPrice
    if unrealizedPct ≥ 3/100 then
      some { actionType := "BUY_ADD",
             metadata := [("pyramid_size", .num baseSpend),
                          ("reason", .str "atr_pyramid"),
                          ("profit_pct", .num unrealizedPct)] }
    else if unrealizedPct ≤ -(5/100) then
      some { actionType := "BUY_ADD",
             metadata := [("averaging_size", .num baseSpend),
                          ("reason", .str "atr_averaging"),
                          ("loss_pct", .num unrealizedPct)] }
    else
      let tierExit : Option StratAction :=
        if unrealizedPct ≥ 5/100 then
          some { actionType := "SELL_PARTIAL",
                 metadata := [("exit_qty", .num (p.qty * (3/10))),
                              ("qty_ratio", .num (3/10)),
                              ("reason", .str "atr_partial_exit"),
                              ("profit_pct", .num unrealizedPct)] }
        else none
      let prices := p.legs.map (fun l => l.price)
      let highestPrice := prices.foldl max (prices.headD 0)
      if currentPrice > highestPrice then
        let newTrailPrice := currentPrice - atr * atrMultiplier
        if newTrailPrice > p.trailingStopPrice then
          some { actionType := "UPDATE_TRAIL", price := some newTrailPrice,
                 metadata := [("highest_price", .num highestPrice),
                              ("trailing_distance", .num (atr * atrMultiplier)),
                              ("reason", .str "atr_trailing_update")] }
        else tierExit
      else tierExit

/-! Symbol rules from src/trader/symbol_rules.py. -/

/-- Embedding of the SymbolFilters dataclass. -/

structure SymbolFilters where
  lotStepSize : ℚ
  lotMinQty : ℚ
  minNotional : ℚ
  priceTickSize : ℚ
deriving DecidableEq, Repr

/-- Truncation toward zero, as the Python int() conversion. -/

def truncToInt (q : ℚ) : ℤ :=
  if 0 ≤ q then ⌊q⌋ else -⌊-q⌋

/-- Rounding half to even on rationals, modelling the Python built-in round
applied to an exact decimal value. -/

def pyRoundHalfEven (q : ℚ) : ℤ :=
  let f := ⌊q⌋
  let r := q - f
  if r < 1/2 then f
  else if 1/2 < r then f + 1
  else if f % 2 = 0 then f else f + 1

/-- Rounding to 8 decimal places, as round(x, 8) in the source. -/

def roundTo8 (q : ℚ) : ℚ :=
  (pyRoundHalfEven (q * 100000000) : ℚ) / 100000000

/-- Embedding of round_qty_to_step. -/

def round_qty_to_step (qty stepSize : ℚ) : ℚ :=
  if stepSize ≤ 0 then qty
  else roundTo8 ((truncToInt (qty / stepSize) : ℚ) * stepSize)

/-- Embedding of validate_min_notional. -/

def validate_min_notional (price qty minNotional : ℚ) : Bool :=
  if minNotional ≤ 0 then true
  else decide (price * qty ≥ minNotional)

/-! TradeExecutor order placement from src/trader/trade_executor.py. Broker
round trips are supplied by an environment record; one PlaceOutcome per
attempted create_order call. -/

/-- Outcome of one create_order attempt inside
_with_retries_and_status_check: a truthy response, a falsy response, or a
raised exception followed by a get_all_orders lookup whose result is none
when the lookup itself raises. -/

inductive PlaceOutcome where
  | ok (resp : Order)
  | falsy
  | exc (lookup : Option (List Order))

/-- Loop of _with_retries_and_status_check; returns the adopted response and
the number of create_order invocations performed. -/

def withRetriesGo (clientOrderId : String) (attempts : Nat → PlaceOutcome) :
    Nat → Nat → Option Order × Nat
  | _, 0 => (none, 0)
  | i, fuel + 1 =>
    match attempts i with
    | .ok resp => (some resp, 1)
    | .falsy =>
      let r := withRetriesGo clientOrderId attempts (i + 1) fuel
      (r.1, r.2 + 1)
    | .exc lookup =>
      match lookup with
      | some orders =>
        match orders.find? (fun o => o.clientOrderId == some clientOrderId) with
        | some o => (some o, 1)
        | none =>
          let r := withRetriesGo clientOrderId attempts (i + 1) fuel
          (r.1, r.2 + 1)
      | none =>
        let r := withRetriesGo clientOrderId attempts (i + 1) fuel
        (r.1, r.2 + 1)

/-- Embedding of _with_retries_and_status_check: up to max(0, order_retry)+1
attempts, adopting a matching recent order after a transport exception. -/

def withRetries (clientOrderId : String) (attempts : Nat → PlaceOutcome)
    (orderRetry : ℤ) : Option Order × Nat :=
  withRetriesGo clientOrderId attempts 0 ((max 0 orderRetry).toNat + 1)

/-- Character-wise upper-casing, modelling the Python str.upper() calls on
order statuses. -/

def strUpper (s : String) : String :=
  ⟨s.data.map Char.toUpper⟩

/-- Test used throughout market_buy and market_sell on response statuses. -/

def statusIsFilled (s : String) : Bool :=
  strUpper s == "FILLED"

/-- Final idempotency lookup of market_buy: when the response is still not
FILLED after polling, search the recent orders for a FILLED order with the
same client order id. -/

def finalIdempotentLookup (resp : Order) (lookup : Option (List Order)) : Order :=
  match resp.clientOrderId.orElse (fun _ => resp.origClientOrderId) with
  | none => resp
  | some coid =>
    match lookup with
    | none => resp
    | some orders =>
      match orders.find? (fun o =>
          o.clientOrderId == some coid && statusIsFilled o.status) with
      | some o => o
      | none => resp

/-- Bracket computation of market_buy: compute_initial_bracket with side
long, falling back to the ATR-multiplier bracket around the latest close
when it raises. -/

def bracketOrFallback (entry atr latestClose atrMultiplier k_sl rr : ℚ) : ℚ × ℚ :=
  match compute_initial_bracket entry atr "long" k_sl rr with
  | .ok b => b
  | .error _ => (max 0 (latestClose - atr * atrMultiplier),
                 latestClose + atr * atrMultiplier)

/-- Environment of one market_buy or market_sell intent: the executor
configuration plus the responses the broker and data provider would give. -/

structure ExecEnv where
  executionMode : String
  killSwitch : Bool
  maxSlippageBps : ℤ
  orderRetry : ℤ
  ticker : Option (ℚ × ℚ)
  clientOrderId : String
  attempts : Nat → PlaceOutcome
  poll : Order → Option Order
  finalLookup : Option (List Order)
  klines : Option (ℚ × Option ℚ)
  currentPrice : Option ℚ
  filters : Option SymbolFilters

/-- How a market_buy or market_sell intent ended. -/

inductive ExecOutcome where
  | killSwitchBlocked
  | slippageBlocked
  | noResponse
  | zeroExecutedQty
  | qtyBelowMin
  | notionalBelowMin
  | priceNotPositive
  | noPosition
  | excepted
  | success
deriving DecidableEq, Repr

/-- Result of one intent: the positions map afterwards, whether
state_manager.save_positions ran, how many create_order calls were made,
and the outcome. -/

structure ExecResult where
  positions : String → Option Position
  persisted : Bool
  createOrderCalls : Nat
  outcome : ExecOutcome

/-- Pointwise update of the positions map. -/

def setPosition (ps : String → Option Position) (s : String) (p : Position) :
    String → Option Position :=
  fun t => if t = s then some p else ps t

/-- Pointwise removal from the positions map. -/

def delPosition (ps : String → Option Position) (s : String) :
    String → Option Position :=
  fun t => if t = s then none else ps t

/-- Embedding of TradeExecutor.market_buy. The LIVE branch runs the kill
switch and slippage gates, places the order with retries and idempotency
lookup, polls and reconciles a non-FILLED response, aggregates fills, and
creates the position; the SIMULATED branch fills at the latest close. A
none from klines or currentPrice models the data fetch raising, which the
outer try of the Python method turns into a reported failure. -/

def marketBuy (env : ExecEnv) (symbol : String) (usdtToSpend : ℚ)
    (atrMultiplier k_sl rr : ℚ) (now : ℤ)
    (positions : String → Option Position) : ExecResult :=
  if env.killSwitch ∧ env.executionMode = "LIVE" then
    ⟨positions, false, 0, .killSwitchBlocked⟩
  else if env.executionMode = "LIVE" then
    if ¬ is_slippage_within_limit env.maxSlippageBps env.ticker then
      ⟨positions, false, 0, .slippageBlocked⟩
    else
      let placed := withRetries env.clientOrderId env.attempts env.orderRetry
      match placed.1 with
      | none => ⟨positions, false, placed.2, .noResponse⟩
      | some resp₀ =>
        let resp₁ :=
          if ¬ statusIsFilled resp₀.status then
            match env.poll resp₀ with
            | some polled => polled
            | none => resp₀
          else resp₀
        let resp :=
          if ¬ statusIsFilled resp₁.status then
            finalIdempotentLookup resp₁ env.finalLookup
          else resp₁
        let agg := compute_fills resp
        if agg.2.1 ≤ 0 then ⟨positions, false, placed.2, .zeroExecutedQty⟩
        else
          match env.klines with
          | none => ⟨positions, false, placed.2, .excepted⟩
          | some (latestClose, atrColumn) =>
            let atr := match atrColumn with
              | some a => a
              | none => latestClose * (2/100)
            let bracket := bracketOrFallback agg.1 atr latestClose atrMultiplier k_sl rr
            let position := mkPosition symbol agg.2.1 agg.1 bracket.1 now
            ⟨setPosition positions symbol position, true, placed.2, .success⟩
  else
    match env.currentPrice with
    | none => ⟨positions, false, 0, .excepted⟩
    | some price =>
      if price ≤ 0 then ⟨positions, false, 0, .priceNotPositive⟩
      else
        let qty := usdtToSpend / price
        match env.klines with
        | none => ⟨positions, false, 0, .excepted⟩
        | some (latestClose, atrColumn) =>
          let atr := match atrColumn with
            | some a => a
            | none => latestClose * (2/100)
          let bracket := bracketOrFallback latestClose atr latestClose atrMultiplier k_sl rr
          let position := mkPosition symbol qty latestClose bracket.1 now
          ⟨setPosition positions symbol position, true, 0, .success⟩

/-- Embedding of TradeExecutor.market_sell. The LIVE branch additionally
validates the lot step, minimum quantity and minimum notional before any
network call; a full sell removes the position from the map. -/

def marketSell (env : ExecEnv) (symbol : String)
    (positions : String → Option Position) : ExecResult :=
  match positions symbol with
  | none => ⟨positions, false, 0, .noPosition⟩
  | some position =>
    if env.killSwitch ∧ env.executionMode = "LIVE" then
      ⟨positions, false, 0, .killSwitchBlocked⟩
    else if env.executionMode = "LIVE" then
      if ¬ is_slippage_within_limit env.maxSlippageBps env.ticker then
        ⟨positions, false, 0, .slippageBlocked⟩
      else
        match env.filters with
        | none => ⟨positions, false, 0, .excepted⟩
        | some filters =>
          match env.ticker with
          | none => ⟨positions, false, 0, .excepted⟩
          | some (bid, _ask) =>
            let qtyRounded := round_qty_to_step position.qty filters.lotStepSize
            if qtyRounded ≤ 0 ∨ qtyRounded < filters.lotMinQty then
              ⟨positions, false, 0, .qtyBelowMin⟩
            else if ¬ validate_min_notional bid qtyRounded filters.minNotional then
              ⟨positions, false, 0, .notionalBelowMin⟩
            else
              let placed := withRetries env.clientOrderId env.attempts env.orderRetry
              match placed.1 with
              | none => ⟨positions, false, placed.2, .noResponse⟩
              | some resp₀ =>
                let resp :=
                  if ¬ statusIsFilled resp₀.status then
                    match env.poll resp₀ with
                    | some polled => polled
                    | none => resp₀
                  else resp₀
                let agg := compute_fills resp
                if agg.2.1 ≤ 0 then ⟨positions, false, placed.2, .zeroExecutedQty⟩
                else ⟨delPosition positions symbol, true, placed.2, .success⟩
    else
      match env.currentPrice with
      | none => ⟨positions, false, 0, .excepted⟩
      | some _price => ⟨delPosition positions symbol, true, 0, .success⟩

/-! Theorems. -/

/-- Concrete order response carrying the two fills of the spec's
aggregation example. -/

def sampleFillsOrder : Order :=
  { status := "FILLED",
    fills := [{ price := 100, qty := 1/100, commission := 0, commissionAsset := none },
              { price := 102, qty := 2/100, commission := 0, commissionAsset := none }] }

/-- Concrete order response with cumulative fields only, matching the retry
test fixture. -/

def sampleCumulativeOrder : Order :=
  { status := "FILLED", clientOrderId := some "cid-stable", orderId := some 999,
    executedQty := 3/200, cummulativeQuoteQty := 3/2 }

/-- Concrete order response used to separate the code's fee-asset choice
from the one the spec describes. -/

def cexFeeOrder : Order :=
  { status := "FILLED",
    fills := [{ price := 100, qty := 1/100, commission := 1/1000, commissionAsset := some "BNB" },
              { price := 102, qty := 2/100, commission := 1/1000, commissionAsset := some "USDT" }] }

/-- Concrete entry leg used by the sample positions below. -/

def sampleLeg : PositionLeg :=
  { timestamp := 0, side := "BUY", qty := 1, price := 100, reason := "entry" }

/-- Concrete position used to instantiate the trailing-stop theorems. -/

def samplePos : Position :=
  { symbol := "BTCUSDT", legs := [sampleLeg],
    exitLegs := [], status := "ACTIVE", entryTime := 0, qty := 1,
    entryPrice := 100, stopPrice := 95, trailingStopPrice := 95,
    highestPrice := 100, maxPyramidLegs := 3, minAddInterval := 3600 }

/-- Truth of a SELL_PARTIAL emission for tier k: the evaluation returns an
action whose reason tag names level k. -/

def emitsTier (p : Position) (price : ℚ) (k : ℕ) : Bool :=
  match getPartialExitAction p price with
  | some a => a.reason == "partial_exit_level_" ++ toString k
  | none => false

/-- Concrete partial-exit leg claiming tier 1. -/

def sampleTierLeg : PositionLeg :=
  { timestamp := 10, side := "SELL", qty := 3/10, price := 105,
    reason := "partial_exit_level_1" }

/-- Concrete position with tier 1 already claimed. -/

def sampleTierPos : Position :=
  { symbol := "BTCUSDT", legs := [sampleLeg],
    exitLegs := [sampleTierLeg], status := "ACTIVE", entryTime := 0, qty := 1,
    entryPrice := 100, stopPrice := 95, trailingStopPrice := 95,
    highestPrice := 106, maxPyramidLegs := 3, minAddInterval := 3600 }

/-- Concrete pyramid leg used by the eligibility counterexample. -/

def pyramidLeg (t : ℤ) : PositionLeg :=
  { timestamp := t, side := "BUY", qty := 1, price := 100, reason := "pyramiding" }

/-- Concrete position holding the maximum number of legs. -/

def cexPyramidPos : Position :=
  { symbol := "BTCUSDT", legs := [pyramidLeg 0, pyramidLeg 10, pyramidLeg 20],
    exitLegs := [], status := "ACTIVE", entryTime := 0, qty := 3, entryPrice := 100,
    stopPrice := 90, trailingStopPrice := 90, highestPrice := 100,
    maxPyramidLegs := 3, minAddInterval := 3600 }

/-- The pyramid action the strategy emits for the counterexample inputs. -/

def cexPyramidAction : StratAction :=
  { actionType := "BUY_ADD",
    metadata := [("pyramid_size", .num 150), ("reason", .str "atr_pyramid"),
                 ("profit_pct", .num (3/100))] }

/-- The pyramid action PositionManager emits for the witness inputs. -/

def pyramidWitnessAction : StratAction :=
  { actionType := "BUY_ADD", qtyFrac := 1/2, reason := "pyramiding",
    metadata := [("base_spend", .num 100), ("pyramid_size", .num 70)] }

/-- Quantity summed over the BUY legs, as _recalculate_totals computes it. -/

def buyQtySum (legs : List PositionLeg) : ℚ :=
  ((legs.filter (fun l => l.side == "BUY")).map (fun l => l.qty)).sum

/-- Cost summed over the BUY legs, as _recalculate_totals computes it. -/

def buyCostSum (legs : List PositionLeg) : ℚ :=
  ((legs.filter (fun l => l.side == "BUY")).map (fun l => l.qty * l.price)).sum

/-- The stored totals of a position agree with a recomputation from its
legs. This is the state _recalculate_totals leaves behind. -/

def totalsInv (p : Position) : Prop :=
  (p.qty, p.entryPrice) = recalcTotals p.legs

/-- Degenerate position built with a positive qty but entry price zero: the
constructor records no initial leg yet keeps the passed qty. -/

def cexDegenPos : Position := mkPosition "XUSDT" 1 0 0 0

/-- A SELL leg appended to the degenerate position. -/

def cexSellLeg : PositionLeg :=
  { timestamp := 0, side := "SELL", qty := 1, price := 100, reason := "" }

/-- Environment of the idempotent-retry scenario, mirroring the retry test
fixture: first attempt raises, the lookup returns the FILLED order. -/

def c1env : ExecEnv :=
  { executionMode := "LIVE", killSwitch := false, maxSlippageBps := 50, orderRetry := 0,
    ticker := some (100, 501/5), clientOrderId := "cid-stable",
    attempts := fun _ => .exc (some [sampleCumulativeOrder]),
    poll := fun _ => none, finalLookup := none,
    klines := some (25/2, some (7/10)), currentPrice := none, filters := none }

/-- Empty positions map. -/

def noPositions : String → Option Position := fun _ => none

/-- Environment with the kill switch armed in LIVE mode. -/

def c3env : ExecEnv :=
  { executionMode := "LIVE", killSwitch := true, maxSlippageBps := 50, orderRetry := 0,
    ticker := none, clientOrderId := "cid-kill",
    attempts := fun _ => .falsy, poll := fun _ => none, finalLookup := none,
    klines := none, currentPrice := none, filters := none }

theorem fillsLoop_eq (fills : List Fill) :
    ∀ tq tb tf fa, fillsLoop fills tq tb tf fa =
      (tq + sumQuote fills, tb + sumQty fills, tf + sumFee fills, lastAsset fills fa) := by
  induction fills with
  | nil => intro tq tb tf fa; simp [fillsLoop, sumQuote, sumQty, sumFee, lastAsset]
  | cons f rest ih =>
    intro tq tb tf fa
    simp only [fillsLoop, lastAsset, ih, sumQuote, sumQty, sumFee, List.map_cons, List.sum_cons,
      Prod.mk.injEq]
    refine ⟨by ring, by ring, by ring, trivial⟩

/-- C6: for all entry and all atr >= 0, kSl >= 0, rr >= 0, the bracket for
side long is (entry - kSl*atr, entry + rr*kSl*atr) and for side short
(entry + kSl*atr, entry - rr*kSl*atr); the concrete inputs of the spec give
(96, 106) and (104, 94); a negative atr, kSl or rr, or an unrecognized
side, yields the validation error. -/

theorem bracket_spec :
    (∀ entry atr k_sl rr : ℚ, 0 ≤ atr → 0 ≤ k_sl → 0 ≤ rr →
      compute_initial_bracket entry atr "long" k_sl rr =
        .ok (entry - k_sl * atr, entry + rr * (k_sl * atr)) ∧
      compute_initial_bracket entry atr "short" k_sl rr =
        .ok (entry + k_sl * atr, entry - rr * (k_sl * atr))) ∧
    compute_initial_bracket 100 2 "long" 2 (3/2) = .ok (96, 106) ∧
    compute_initial_bracket 100 2 "short" 2 (3/2) = .ok (104, 94) ∧
    (∀ (entry atr k_sl rr : ℚ) (side : String), atr < 0 ∨ k_sl < 0 ∨ rr < 0 →
      ∃ msg, compute_initial_bracket entry atr side k_sl rr = .error msg) ∧
    (∀ (entry atr k_sl rr : ℚ) (side : String),
      side ≠ "long" → side ≠ "short" →
      ∃ msg, compute_initial_bracket entry atr side k_sl rr = .error msg) := by
  refine ⟨?_, ?_, ?_, ?_, ?_⟩
  · intro entry atr k_sl rr ha hk hr
    have hcond : ¬ (atr < 0 ∨ k_sl < 0 ∨ rr < 0) := by
      push_neg
      exact ⟨ha, hk, hr⟩
    constructor
    · simp [compute_initial_bracket, hcond]
    · simp [compute_initial_bracket, hcond]
  · simp [compute_initial_bracket]
    norm_num
  · simp [compute_initial_bracket]
    norm_num
  · intro entry atr k_sl rr side h
    refine ⟨"atr, k_sl, rr must be non-negative", ?_⟩
    simp [compute_initial_bracket, h]
  · intro entry atr k_sl rr side hlong hshort
    by_cases hneg : atr < 0 ∨ k_sl < 0 ∨ rr < 0
    · exact ⟨"atr, k_sl, rr must be non-negative", by simp [compute_initial_bracket, hneg]⟩
    · exact ⟨"side must be long or short",
        by simp [compute_initial_bracket, hneg, hlong, hshort]⟩

/-- Witness for bracket_spec: the general conjunct applied at entry = 100,
atr = 2, kSl = 2, rr = 3/2 yields exactly the sample bracket. -/

theorem bracket_spec_witness :
    (0:ℚ) ≤ 2 ∧ compute_initial_bracket 100 2 "long" 2 (3/2) = .ok (96, 106) := by
  refine ⟨by norm_num, ?_⟩
  have h := (bracket_spec.1 100 2 2 (3/2) (by norm_num) (by norm_num) (by norm_num)).1
  rw [h]
  norm_num

/-- C9 counterexample: at bid = 100, ask = 100.1 and maxBps = 5 the claim
asserts acceptance, but the spread is 20000/2001 of a basis point times
1000, about 9.995 bps, so the guard rejects. -/

theorem slippage_claim_cex :
    is_slippage_within_limit 5 (some (100, 1001/10)) = false := by
  simp [is_slippage_within_limit]
  norm_num

/-- C9 amended: with both quotes positive and a positive ceiling, the guard
compares the mid-based spread in basis points to the ceiling; a missing or
non-positive quote allows; bid = 100, ask = 101 rejects at maxBps = 5; and
bid = 100, ask = 100.1 rejects at maxBps = 5 but is accepted at the
executor default maxBps = 50. -/

theorem slippage_guard_spec :
    (∀ (maxBps : ℤ) (bid ask : ℚ), 0 < maxBps → 0 < bid → 0 < ask →
      is_slippage_within_limit maxBps (some (bid, ask)) =
        decide ((ask - bid) / ((bid + ask) / 2) * 10000 ≤ (maxBps : ℚ))) ∧
    (∀ maxBps : ℤ, is_slippage_within_limit maxBps none = true) ∧
    (∀ (maxBps : ℤ) (bid ask : ℚ), bid ≤ 0 ∨ ask ≤ 0 →
      is_slippage_within_limit maxBps (some (bid, ask)) = true) ∧
    is_slippage_within_limit 5 (some (100, 101)) = false ∧
    is_slippage_within_limit 5 (some (100, 1001/10)) = false ∧
    is_slippage_within_limit 50 (some (100, 1001/10)) = true := by
  refine ⟨?_, ?_, ?_, ?_, ?_, ?_⟩
  · intro maxBps bid ask hm hb ha
    have hmax : max 0 maxBps = maxBps := max_eq_right hm.le
    have hble : ¬ (bid ≤ 0 ∨ ask ≤ 0) := by
      push_neg
      exact ⟨hb, ha⟩
    simp only [is_slippage_within_limit, hmax, if_neg (not_le.mpr hm), if_neg hble]
  · intro maxBps
    by_cases h : max 0 maxBps ≤ 0 <;> simp [is_slippage_within_limit, h]
  · intro maxBps bid ask h
    by_cases h0 : max 0 maxBps ≤ 0
    · simp [is_slippage_within_limit, h0]
    · simp [is_slippage_within_limit, h0, h]
  · simp [is_slippage_within_limit]
    norm_num
  · simp [is_slippage_within_limit]
    norm_num
  · simp [is_slippage_within_limit]
    norm_num

/-- Witness for slippage_guard_spec: its first conjunct applied at
bid = 100, ask = 100.2, maxBps = 50, matching the retry test fixture. -/

theorem slippage_guard_spec_witness :
    (0:ℤ) < 50 ∧
    is_slippage_within_limit 50 (some (100, 501/5)) =
      decide (((501:ℚ)/5 - 100) / ((100 + 501/5) / 2) * 10000 ≤ (50:ℚ)) := by
  exact ⟨by norm_num,
    slippage_guard_spec.1 50 100 (501/5) (by norm_num) (by norm_num) (by norm_num)⟩

/-- C7 counterexample: on two fills whose commission assets are BNB then
USDT, _compute_fills returns the last one present (USDT), not the first
non-null one (BNB) that the claim describes. -/

theorem fill_aggregation_fee_asset_cex :
    (compute_fills cexFeeOrder).2.2.2 = some "USDT" ∧
    specFirstNonNullAsset cexFeeOrder.fills = some "BNB" ∧
    (compute_fills cexFeeOrder).2.2.2 ≠ specFirstNonNullAsset cexFeeOrder.fills := by
  refine ⟨rfl, rfl, ?_⟩
  intro h
  rw [show (compute_fills cexFeeOrder).2.2.2 = some "USDT" from rfl] at h
  rw [show specFirstNonNullAsset cexFeeOrder.fills = some "BNB" from rfl] at h
  exact absurd (Option.some.inj h) (by decide)

/-- C7 amended: on an explicit fill list the aggregator returns the
volume-weighted average price, the quantity sum, the commission sum and the
commission asset of the last fill carrying one; on cumulative fields it
returns cumulativeQuoteQty/executedQty and executedQty with zero fee; a
zero total quantity yields price 0 without dividing; and the sampled fills
give qty = 3/100 and average price 304/3. -/

theorem fill_aggregation_spec :
    (∀ resp : Order, resp.fills ≠ [] →
      compute_fills resp =
        ((if 0 < sumQty resp.fills then sumQuote resp.fills / sumQty resp.fills else 0),
         sumQty resp.fills, sumFee resp.fills, lastAsset resp.fills none)) ∧
    (∀ resp : Order, resp.fills = [] →
      compute_fills resp =
        ((if 0 < resp.executedQty then resp.cummulativeQuoteQty / resp.executedQty else 0),
         resp.executedQty, 0, none)) ∧
    (∀ resp : Order, resp.fills ≠ [] → sumQty resp.fills = 0 →
      (compute_fills resp).1 = 0 ∧ (compute_fills resp).2.1 = 0) ∧
    (∀ resp : Order, resp.fills = [] → resp.executedQty = 0 →
      (compute_fills resp).1 = 0 ∧ (compute_fills resp).2.1 = 0) ∧
    compute_fills sampleFillsOrder = (304/3, 3/100, 0, none) := by
  have hfill : ∀ resp : Order, resp.fills ≠ [] →
      compute_fills resp =
        ((if 0 < sumQty resp.fills then sumQuote resp.fills / sumQty resp.fills else 0),
         sumQty resp.fills, sumFee resp.fills, lastAsset resp.fills none) := by
    intro resp hne
    unfold compute_fills
    cases hf : resp.fills with
    | nil => exact absurd hf hne
    | cons f rest =>
      have hl := fillsLoop_eq (f :: rest) 0 0 0 none
      simp only [hl, zero_add]
  have hcum : ∀ resp : Order, resp.fills = [] →
      compute_fills resp =
        ((if 0 < resp.executedQty then resp.cummulativeQuoteQty / resp.executedQty else 0),
         resp.executedQty, 0, none) := by
    intro resp he
    unfold compute_fills
    rw [he]
  refine ⟨hfill, hcum, ?_, ?_, ?_⟩
  · intro resp hne hz
    rw [hfill resp hne, hz]
    norm_num
  · intro resp he hz
    rw [hcum resp he, hz]
    norm_num
  · rw [hfill _ (by simp [sampleFillsOrder])]
    have h1 : sumQty sampleFillsOrder.fills = 3/100 := by
      simp [sumQty, sampleFillsOrder]
      norm_num
    have h2 : sumQuote sampleFillsOrder.fills = 76/25 := by
      simp [sumQuote, sampleFillsOrder]
      norm_num
    have h3 : sumFee sampleFillsOrder.fills = 0 := by
      simp [sumFee, sampleFillsOrder]
    have h4 : lastAsset sampleFillsOrder.fills none = none := by
      simp [lastAsset, sampleFillsOrder]
    simp only [h1, h2, h3, h4]
    norm_num

/-- Witness for fill_aggregation_spec: its cumulative-fields conjunct at the
retry-test response with executedQty 0.015 and cumulative quote 1.5 gives
an average price of 100. -/

theorem fill_aggregation_spec_witness :
    sampleCumulativeOrder.fills = [] ∧
    compute_fills sampleCumulativeOrder = (100, 3/200, 0, none) := by
  refine ⟨rfl, ?_⟩
  have h := fill_aggregation_spec.2.1 sampleCumulativeOrder rfl
  rw [h]
  norm_num [sampleCumulativeOrder]

/-- C8: with capital, win rate, average win and loss, max score and the
clamping bounds held fixed and valid, kelly_position_size is monotonically
non-decreasing in the absolute value of the score. -/

theorem kelly_monotone_in_score
    (capital win_rate avg_win avg_loss max_score f_max pos_min pos_max s₁ s₂ : ℚ)
    (hc : 0 < capital) (hw : 0 < avg_win) (hl : 0 < avg_loss) (hm : 0 < max_score)
    (hs : |s₁| ≤ |s₂|) :
    kelly_position_size capital win_rate avg_win avg_loss s₁ max_score f_max pos_min pos_max ≤
    kelly_position_size capital win_rate avg_win avg_loss s₂ max_score f_max pos_min pos_max := by
  have hb : 0 < avg_win / avg_loss := div_pos hw hl
  have hvalid : ¬ (avg_win ≤ 0 ∨ avg_loss ≤ 0 ∨ max_score ≤ 0) := by
    push_neg
    exact ⟨hw, hl, hm⟩
  simp only [kelly_position_size, if_neg (not_le.mpr hc), if_neg hvalid,
    if_neg (not_le.mpr hb)]
  have hconf : min 1 (max 0 (|s₁| / max_score)) ≤ min 1 (max 0 (|s₂| / max_score)) := by
    refine min_le_min le_rfl (max_le_max le_rfl ?_)
    exact div_le_div_of_nonneg_right hs hm.le
  have hfstar : (0:ℚ) ≤ max 0 (min ((avg_win / avg_loss * max 0 (min 1 win_rate) -
      (1 - max 0 (min 1 win_rate))) / (avg_win / avg_loss)) f_max) := le_max_left _ _
  refine mul_le_mul_of_nonneg_left ?_ hc.le
  refine max_le_max le_rfl (min_le_min ?_ le_rfl)
  exact mul_le_mul_of_nonneg_left hconf hfstar

/-- Witness for kelly_monotone_in_score at the valid concrete inputs
capital = 100, win rate 55/100, avg win 2, avg loss 1, scores 1/2 and 1,
max score 1, fMax 1/5, bounds 0 and 1. -/

theorem kelly_monotone_in_score_witness :
    (0:ℚ) < 100 ∧ |(1:ℚ)/2| ≤ |(1:ℚ)| ∧
    kelly_position_size 100 (55/100) 2 1 (1/2) 1 (1/5) 0 1 ≤
      kelly_position_size 100 (55/100) 2 1 1 1 (1/5) 0 1 :=
  ⟨by norm_num, by rw [abs_of_pos (by norm_num : (0:ℚ) < 1/2), abs_one]; norm_num,
   kelly_monotone_in_score 100 (55/100) 2 1 1 (1/5) 0 1 (1/2) 1
     (by norm_num) (by norm_num) (by norm_num) (by norm_num)
     (by rw [abs_of_pos (by norm_num : (0:ℚ) < 1/2), abs_one]; norm_num)⟩

/-- Helper: updateTrailingStop never lowers the trailing stop. -/

theorem updateTrailingStop_le (p : Position) (np : ℚ) :
    p.trailingStopPrice ≤ (updateTrailingStop p np).trailingStopPrice := by
  unfold updateTrailingStop
  split
  · next h => exact le_of_lt h
  · exact le_rfl

/-- Helper: the manager mutation of update_trailing_stop touches only
highest_price, not the trailing stop itself. -/

theorem tsmUpdate_fst_trailing (p : Position) (c a : ℚ) :
    (tsmUpdateTrailingStop p c a).1.trailingStopPrice = p.trailingStopPrice := by
  unfold tsmUpdateTrailingStop
  split
  · rfl
  · dsimp only
    split
    · split <;> rfl
    · split <;> rfl

/-- Helper: should_update_trailing also leaves the trailing stop in place. -/

theorem shouldUpdate_fst_trailing (p : Position) (c a : ℚ) :
    (shouldUpdateTrailing p c a).1.trailingStopPrice = p.trailingStopPrice := by
  unfold shouldUpdateTrailing
  split
  · rfl
  · exact tsmUpdate_fst_trailing p c a

/-- Helper: the action construction leaves the trailing stop in place. -/

theorem getTrailingAction_fst_trailing (p : Position) (c a : ℚ) :
    (getTrailingUpdateAction p c a).1.trailingStopPrice = p.trailingStopPrice := by
  unfold getTrailingUpdateAction
  dsimp only
  split
  · exact (tsmUpdate_fst_trailing _ c a).trans (shouldUpdate_fst_trailing p c a)
  · exact shouldUpdate_fst_trailing p c a

/-- Helper: every trailing-stop event weakly raises the trailing stop. -/

theorem trailStep_mono (p : Position) (e : TrailEvent) :
    p.trailingStopPrice ≤ (trailStep p e).trailingStopPrice := by
  cases e with
  | direct np => exact updateTrailingStop_le p np
  | tick c a =>
    show p.trailingStopPrice ≤ (trailEvalTick p c a).trailingStopPrice
    have hfst := getTrailingAction_fst_trailing p c a
    unfold trailEvalTick handleTrailingStopUpdate
    cases hr : (getTrailingUpdateAction p c a).2 with
    | none =>
      simp only [hr]
      rw [hfst]
    | some np =>
      simp only [hr]
      calc p.trailingStopPrice
          = (getTrailingUpdateAction p c a).1.trailingStopPrice := hfst.symm
        _ ≤ _ := updateTrailingStop_le _ np

/-- Helper: a scan along a step relation that only moves forward forms a
non-decreasing chain. -/

theorem chain_scanl_of_step {α β : Type} (R : α → α → Prop) (g : α → β → α)
    (hstep : ∀ x e, R x (g x e)) :
    ∀ (l : List β) (b : α), List.Chain' R (List.scanl g b l) := by
  intro l
  induction l with
  | nil => intro b; simp
  | cons e es ih =>
    intro b
    rw [List.scanl_cons, List.singleton_append]
    refine List.chain'_cons'.mpr ⟨?_, ih (g b e)⟩
    intro y hy
    have hhead : (List.scanl g (g b e) es).head? = some (g b e) := by
      cases es <;> rfl
    rw [hhead] at hy
    cases hy
    exact hstep b e

/-- C2: across any sequence of direct update_trailing_stop calls and
UPDATE_TRAIL evaluations, the trailing stop prices form a monotonically
non-decreasing sequence, and an update whose candidate does not exceed the
current trailing stop leaves the position unchanged. -/

theorem trailing_stop_monotone :
    (∀ (p : Position) (events : List TrailEvent),
      List.Chain' (· ≤ ·)
        ((List.scanl trailStep p events).map (fun q => q.trailingStopPrice))) ∧
    (∀ (p : Position) (cand : ℚ), cand ≤ p.trailingStopPrice →
      updateTrailingStop p cand = p) := by
  constructor
  · intro p events
    rw [List.chain'_map]
    exact chain_scanl_of_step _ trailStep trailStep_mono events p
  · intro p cand h
    unfold updateTrailingStop
    rw [if_neg (not_lt.mpr h)]

/-- Witness for trailing_stop_monotone: a candidate of 90 is not above the
current trailing stop of 95, so the update leaves the position unchanged,
and a rise-then-fall price path yields a non-decreasing trace. -/

theorem trailing_stop_monotone_witness :
    ((90:ℚ) ≤ samplePos.trailingStopPrice ∧ updateTrailingStop samplePos 90 = samplePos) ∧
    List.Chain' (· ≤ ·)
      ((List.scanl trailStep samplePos
        [.tick 110 1, .tick 120 1, .tick 105 1]).map (fun q => q.trailingStopPrice)) :=
  ⟨⟨by norm_num [samplePos], trailing_stop_monotone.2 samplePos 90 (by norm_num [samplePos])⟩,
   trailing_stop_monotone.1 samplePos [.tick 110 1, .tick 120 1, .tick 105 1]⟩

/-- C4: once a partial-exit leg whose reason tag names tier k is recorded on
the position, no evaluation at any price emits a SELL_PARTIAL action for
tier k again. -/

theorem exit_tier_at_most_once (p : Position) (k : ℕ) (leg : PositionLeg) (price : ℚ)
    (hmem : leg ∈ p.exitLegs)
    (hreason : leg.reason = "partial_exit_level_" ++ toString k) :
    emitsTier p price k = false := by
  unfold emitsTier getPartialExitAction
  cases hlv : shouldPartialExitLevel p price with
  | none => rfl
  | some lv =>
    dsimp only
    by_cases hq : p.qty * lv.exitFrac ≤ 0
    · rw [if_pos hq]
    · rw [if_neg hq]
      have hlv' : List.find? (fun lv =>
          decide ((price - p.entryPrice) / p.entryPrice ≥ lv.profitPct) &&
            ! alreadyExitedAtLevel p lv.level) exitLevels = some lv := hlv
      have hmemlv := List.mem_of_find?_eq_some hlv'
      have hpred := List.find?_some hlv'
      rw [Bool.and_eq_true] at hpred
      have hnot : alreadyExitedAtLevel p lv.level = false := by
        have h2 := hpred.2
        simpa using h2
      show (("partial_exit_level_" ++ toString lv.level) ==
        ("partial_exit_level_" ++ toString k)) = false
      by_contra hbeq
      rw [Bool.not_eq_false, beq_iff_eq] at hbeq
      have hclaimed : alreadyExitedAtLevel p lv.level = true := by
        unfold alreadyExitedAtLevel
        rw [List.any_eq_true]
        refine ⟨leg, hmem, ?_⟩
        rw [hreason, ← hbeq]
        have hlev : lv.level = 1 ∨ lv.level = 2 ∨ lv.level = 3 ∨ lv.level = 4 := by
          simp only [exitLevels, List.mem_cons, List.not_mem_nil, or_false] at hmemlv
          rcases hmemlv with rfl | rfl | rfl | rfl
          · exact Or.inl rfl
          · exact Or.inr (Or.inl rfl)
          · exact Or.inr (Or.inr (Or.inl rfl))
          · exact Or.inr (Or.inr (Or.inr rfl))
        rcases hlev with h | h | h | h <;> rw [h] <;> decide
      rw [hclaimed] at hnot
      cases hnot

/-- Witness for exit_tier_at_most_once: at a price 6 percent above entry,
tier 1 is reached again but is never re-emitted. -/

theorem exit_tier_at_most_once_witness :
    sampleTierLeg ∈ sampleTierPos.exitLegs ∧ emitsTier sampleTierPos 106 1 = false :=
  ⟨List.Mem.head _,
   exit_tier_at_most_once sampleTierPos 1 sampleTierLeg 106 (List.Mem.head _) (by decide)⟩

/-- C5 counterexample: on a position already holding max_pyramid_legs legs,
the last of which is as recent as the evaluation itself,
ATRTrailingStopStrategy.get_position_action still emits the pyramid BUY_ADD
as soon as the profit threshold is reached. -/

theorem pyramid_eligibility_cex :
    atrGetPositionAction cexPyramidPos 103 1 1 = some cexPyramidAction ∧
    ¬ cexPyramidPos.legs.length < cexPyramidPos.maxPyramidLegs := by
  constructor
  · have hlegs : cexPyramidPos.legs ≠ [] := by simp [cexPyramidPos]
    have hatr : ¬ ((1:ℚ) ≤ 0) := by norm_num
    have hprofit : ((103:ℚ) - cexPyramidPos.entryPrice) / cexPyramidPos.entryPrice ≥ 3/100 := by
      norm_num [cexPyramidPos]
    unfold atrGetPositionAction
    rw [if_neg hlegs, if_neg hatr]
    dsimp only
    rw [if_pos hprofit]
    show some _ = some cexPyramidAction
    congr 1
    unfold cexPyramidAction
    norm_num [cexPyramidPos]
  · simp [cexPyramidPos]

/-- C5 amended: PositionManager.get_pyramid_action emits the pyramiding
BUY_ADD only if the unrealized return reaches 3 percent, the leg count is
strictly below max_pyramid_legs, and (when the evaluation does not precede
the last leg) at least min_add_interval seconds elapsed since the last leg;
ATRTrailingStopStrategy.get_position_action instead emits its pyramid
BUY_ADD from the profit threshold alone. -/

theorem pyramid_eligibility_amended :
    (∀ (p : Position) (now : ℤ) (currentPrice baseSpend : ℚ) (act : StratAction),
      getPyramidAction p now currentPrice baseSpend = some act →
        (currentPrice - p.entryPrice) / p.entryPrice ≥ 3/100 ∧
        p.legs.length < p.maxPyramidLegs ∧
        (∀ lastLeg, p.legs.getLast? = some lastLeg → lastLeg.timestamp ≤ now →
          p.minAddInterval ≤ now - lastLeg.timestamp)) ∧
    (∀ (p : Position) (currentPrice atr atrMultiplier : ℚ),
      p.legs ≠ [] → 0 < atr →
      (currentPrice - p.entryPrice) / p.entryPrice ≥ 3/100 →
      ∃ act, atrGetPositionAction p currentPrice atr atrMultiplier = some act ∧
        act.actionType = "BUY_ADD" ∧
        ("reason", MetaVal.str "atr_pyramid") ∈ act.metadata) := by
  constructor
  · intro p now currentPrice baseSpend act hact
    unfold getPyramidAction at hact
    by_cases hsp : shouldPyramid p now currentPrice = true
    · have hcan : canAddPosition p now = true := by
        by_contra hc
        rw [Bool.not_eq_true] at hc
        unfold shouldPyramid at hsp
        rw [if_pos (by rw [hc]; exact Bool.false_ne_true)] at hsp
        exact Bool.false_ne_true hsp
      have hprofit : (currentPrice - p.entryPrice) / p.entryPrice ≥ 3/100 := by
        unfold shouldPyramid at hsp
        rw [if_neg (not_not_intro hcan)] at hsp
        exact of_decide_eq_true hsp
      have hlen : p.legs.length < p.maxPyramidLegs := by
        by_contra hl
        unfold canAddPosition at hcan
        rw [if_pos (not_lt.mp hl)] at hcan
        exact Bool.false_ne_true hcan
      refine ⟨hprofit, hlen, ?_⟩
      intro lastLeg hlast hle
      unfold canAddPosition at hcan
      rw [if_neg (not_le.mpr hlen), hlast] at hcan
      dsimp only at hcan
      by_cases ht : (now - lastLeg.timestamp) % 86400 < p.minAddInterval
      · rw [if_pos ht] at hcan
        exact absurd hcan Bool.false_ne_true
      · have h0 : 0 ≤ now - lastLeg.timestamp := by omega
        omega
    · rw [if_pos hsp] at hact
      exact absurd hact (by simp)
  · intro p currentPrice atr atrMultiplier hlegs hatr hprofit
    have hne : ¬ (atr ≤ 0) := not_le.mpr hatr
    have heq : atrGetPositionAction p currentPrice atr atrMultiplier =
        some { actionType := "BUY_ADD",
               metadata := [("pyramid_size", .num (p.qty * p.entryPrice * (1/2))),
                            ("reason", .str "atr_pyramid"),
                            ("profit_pct", .num ((currentPrice - p.entryPrice) / p.entryPrice))] } := by
      unfold atrGetPositionAction
      rw [if_neg hlegs, if_neg hne]
      dsimp only
      rw [if_pos hprofit]
    exact ⟨_, heq, rfl, List.Mem.tail _ (List.Mem.head _)⟩

/-- Witness for pyramid_eligibility_amended: two hours after a single entry
leg, a 3 percent gain makes PositionManager emit the pyramiding action, and
the eligibility conditions indeed hold. -/

theorem pyramid_eligibility_amended_witness :
    getPyramidAction samplePos 7200 103 100 = some pyramidWitnessAction ∧
    (103 - samplePos.entryPrice) / samplePos.entryPrice ≥ 3/100 ∧
    samplePos.legs.length < samplePos.maxPyramidLegs := by
  have hact : getPyramidAction samplePos 7200 103 100 = some pyramidWitnessAction := by
    have hsp : shouldPyramid samplePos 7200 103 = true := by
      unfold shouldPyramid canAddPosition
      norm_num [samplePos, sampleLeg]
    unfold getPyramidAction
    rw [if_neg (not_not_intro hsp)]
    have hsize : calculatePyramidSize samplePos 100 = 70 := by
      norm_num [calculatePyramidSize, samplePos]
    rw [hsize]
    norm_num [pyramidWitnessAction]
  have h := pyramid_eligibility_amended.1 samplePos 7200 103 100 pyramidWitnessAction hact
  exact ⟨hact, h.1, h.2.1⟩

/-- Helper: recomputing totals ignores an appended non-BUY leg. -/

theorem recalcTotals_append_nonbuy (legs : List PositionLeg) (leg : PositionLeg)
    (h : (leg.side == "BUY") = false) :
    recalcTotals (legs ++ [leg]) = recalcTotals legs := by
  have hfilter : (legs ++ [leg]).filter (fun l => l.side == "BUY") =
      legs.filter (fun l => l.side == "BUY") := by
    rw [List.filter_append]
    simp [List.filter, h]
  unfold recalcTotals
  rw [hfilter, if_neg (by simp)]
  cases legs with
  | nil => simp [List.filter_nil]
  | cons a as => rw [if_neg (show ¬ (a :: as = []) by simp)]

/-- C10 counterexample: a Position constructed with qty 1 and entry price 0
stores qty 1 although it has no BUY leg, and appending a SELL leg via
add_leg changes its qty to 0. -/

theorem derived_totals_cex :
    cexDegenPos.qty = 1 ∧
    buyQtySum cexDegenPos.legs = 0 ∧
    cexDegenPos.qty ≠ buyQtySum cexDegenPos.legs ∧
    (addLeg cexDegenPos cexSellLeg).qty = 0 ∧
    (addLeg cexDegenPos cexSellLeg).qty ≠ cexDegenPos.qty := by
  have h1 : cexDegenPos.qty = 1 := by
    norm_num [cexDegenPos, mkPosition]
  have h2 : buyQtySum cexDegenPos.legs = 0 := by
    norm_num [cexDegenPos, mkPosition, buyQtySum]
  have h4 : (addLeg cexDegenPos cexSellLeg).qty = 0 := by
    have hside : ("SELL" == "BUY") = false := by decide
    norm_num [cexDegenPos, mkPosition, addLeg, recalcPosition, recalcTotals, cexSellLeg,
      List.filter, hside]
  refine ⟨h1, h2, ?_, h4, ?_⟩
  · rw [h1, h2]
    norm_num
  · rw [h1, h4]
    norm_num

/-- C10 amended: after a construction that records the initial leg, and
after every add_leg call, the stored qty is the BUY-leg quantity sum and
the stored entry price their quantity-weighted average; on such positions
appending a SELL leg leaves qty and entry price unchanged, and recording a
partial-exit leg never touches the legs or the stored totals. -/

theorem derived_totals_amended :
    (∀ (s : String) (q e st : ℚ) (t : ℤ), 0 < q → 0 < e →
      totalsInv (mkPosition s q e st t)) ∧
    (∀ (p : Position) (leg : PositionLeg), totalsInv (addLeg p leg)) ∧
    (∀ p : Position, totalsInv p → 0 < buyQtySum p.legs →
      p.qty = buyQtySum p.legs ∧ p.entryPrice = buyCostSum p.legs / buyQtySum p.legs) ∧
    (∀ (p : Position) (leg : PositionLeg), totalsInv p → (leg.side == "BUY") = false →
      (addLeg p leg).qty = p.qty ∧ (addLeg p leg).entryPrice = p.entryPrice) ∧
    (∀ (p : Position) (leg : PositionLeg),
      (recordExitLeg p leg).qty = p.qty ∧ (recordExitLeg p leg).entryPrice = p.entryPrice ∧
      (recordExitLeg p leg).legs = p.legs) := by
  have hadd : ∀ (p : Position) (leg : PositionLeg), totalsInv (addLeg p leg) := by
    intro p leg
    unfold totalsInv addLeg recalcPosition
    rfl
  refine ⟨?_, hadd, ?_, ?_, ?_⟩
  · intro s q e st t hq he
    unfold mkPosition
    rw [if_pos ⟨hq, he⟩]
    unfold totalsInv recalcPosition
    rfl
  · intro p hinv hpos
    unfold totalsInv recalcTotals at hinv
    have hne : p.legs ≠ [] := by
      intro h
      rw [if_pos h] at hinv
      have : p.qty = 0 := congrArg Prod.fst hinv
      rw [buyQtySum, h] at hpos
      simp [List.filter_nil] at hpos
    rw [if_neg hne] at hinv
    dsimp only at hinv
    rw [if_pos] at hinv
    · exact ⟨congrArg Prod.fst hinv, congrArg Prod.snd hinv⟩
    · exact hpos
  · intro p leg hinv hside
    have hrec := recalcTotals_append_nonbuy p.legs leg hside
    unfold totalsInv at hinv
    constructor
    · show (recalcTotals (p.legs ++ [leg])).1 = p.qty
      rw [hrec, ← hinv]
    · show (recalcTotals (p.legs ++ [leg])).2 = p.entryPrice
      rw [hrec, ← hinv]
  · intro p leg
    exact ⟨rfl, rfl, rfl⟩

/-- Witness for derived_totals_amended: a position built from a fill of
qty 2 at price 50 satisfies the recomputed-totals invariant. -/

theorem derived_totals_amended_witness :
    (0:ℚ) < 2 ∧ (0:ℚ) < 50 ∧ totalsInv (mkPosition "ETHUSDT" 2 50 45 0) :=
  ⟨by norm_num, by norm_num,
   derived_totals_amended.1 "ETHUSDT" 2 50 45 0 (by norm_num) (by norm_num)⟩

/-- Helper: a FILLED status string passes the status test. -/

theorem statusIsFilled_FILLED : statusIsFilled "FILLED" = true := by decide

/-- Helper: when the first create_order attempt raises and the recent-orders
lookup holds a matching order, the retry loop adopts it after exactly one
create_order invocation, whatever the retry budget. -/

theorem withRetries_adopts_lookup (coid : String) (attempts : Nat → PlaceOutcome)
    (orderRetry : ℤ) (orders : List Order) (o : Order)
    (hatt : attempts 0 = .exc (some orders))
    (hfind : orders.find? (fun x => x.clientOrderId == some coid) = some o) :
    withRetries coid attempts orderRetry = (some o, 1) := by
  unfold withRetries withRetriesGo
  rw [hatt]
  dsimp only
  rw [hfind]

/-- C1: under a transport exception on the first create_order attempt and a
recent-orders lookup that returns a FILLED order carrying the intent's
idempotency key, market_buy in LIVE mode adopts that order, performs
exactly one create_order call, stores exactly one new Position for the
symbol built from the adopted fill data, and persists once. -/

theorem market_buy_idempotent_retry
    (env : ExecEnv) (symbol : String) (usdt am ks rr : ℚ) (now : ℤ)
    (positions : String → Option Position) (orders : List Order) (o : Order) (c a : ℚ)
    (hmode : env.executionMode = "LIVE") (hkill : env.killSwitch = false)
    (hslip : is_slippage_within_limit env.maxSlippageBps env.ticker = true)
    (hatt : env.attempts 0 = .exc (some orders))
    (hfind : orders.find? (fun x => x.clientOrderId == some env.clientOrderId) = some o)
    (hstatus : o.status = "FILLED")
    (hqty : 0 < (compute_fills o).2.1)
    (hkl : env.klines = some (c, some a)) :
    marketBuy env symbol usdt am ks rr now positions =
      ⟨setPosition positions symbol
        (mkPosition symbol (compute_fills o).2.1 (compute_fills o).1
          (bracketOrFallback (compute_fills o).1 a c am ks rr).1 now),
       true, 1, .success⟩ ∧
    (marketBuy env symbol usdt am ks rr now positions).positions symbol =
      some (mkPosition symbol (compute_fills o).2.1 (compute_fills o).1
        (bracketOrFallback (compute_fills o).1 a c am ks rr).1 now) ∧
    (∀ s, s ≠ symbol →
      (marketBuy env symbol usdt am ks rr now positions).positions s = positions s) := by
  have hw := withRetries_adopts_lookup env.clientOrderId env.attempts env.orderRetry
    orders o hatt hfind
  have hkillcond : ¬ (env.killSwitch = true ∧ env.executionMode = "LIVE") := by
    simp [hkill]
  have hmain : marketBuy env symbol usdt am ks rr now positions =
      ⟨setPosition positions symbol
        (mkPosition symbol (compute_fills o).2.1 (compute_fills o).1
          (bracketOrFallback (compute_fills o).1 a c am ks rr).1 now),
       true, 1, .success⟩ := by
    unfold marketBuy
    rw [if_neg hkillcond, if_pos hmode, if_neg (not_not_intro hslip), hw]
    dsimp only
    simp only [hstatus, statusIsFilled_FILLED, eq_self_iff_true, not_true, if_false]
    rw [if_neg (not_le.mpr hqty), hkl]
  refine ⟨hmain, ?_, ?_⟩
  · rw [hmain]
    simp [setPosition]
  · intro s hs
    rw [hmain]
    simp [setPosition, hs]

/-- Witness for market_buy_idempotent_retry at the retry-test fixture. -/

theorem market_buy_idempotent_retry_witness :
    is_slippage_within_limit c1env.maxSlippageBps c1env.ticker = true ∧
    0 < (compute_fills sampleCumulativeOrder).2.1 ∧
    marketBuy c1env "ETHUSDT" (3/2) (1/2) 1 (3/2) 0 noPositions =
      ⟨setPosition noPositions "ETHUSDT"
        (mkPosition "ETHUSDT" (compute_fills sampleCumulativeOrder).2.1
          (compute_fills sampleCumulativeOrder).1
          (bracketOrFallback (compute_fills sampleCumulativeOrder).1 (7/10) (25/2)
            (1/2) 1 (3/2)).1 0),
       true, 1, .success⟩ := by
  have hslip : is_slippage_within_limit c1env.maxSlippageBps c1env.ticker = true := by
    norm_num [is_slippage_within_limit, c1env]
  have hqty : 0 < (compute_fills sampleCumulativeOrder).2.1 := by
    norm_num [compute_fills, sampleCumulativeOrder]
  refine ⟨hslip, hqty, ?_⟩
  exact (market_buy_idempotent_retry c1env "ETHUSDT" (3/2) (1/2) 1 (3/2) 0 noPositions
    [sampleCumulativeOrder] sampleCumulativeOrder (25/2) (7/10)
    rfl rfl hslip rfl rfl rfl hqty rfl).1

/-- Helper: whenever market_buy does not succeed, the positions map and the
persistence flag are untouched. -/

theorem marketBuy_not_success_atomic (env : ExecEnv) (symbol : String)
    (usdt am ks rr : ℚ) (now : ℤ) (positions : String → Option Position)
    (h : (marketBuy env symbol usdt am ks rr now positions).outcome ≠ .success) :
    (marketBuy env symbol usdt am ks rr now positions).positions = positions ∧
    (marketBuy env symbol usdt am ks rr now positions).persisted = false := by
  revert h
  unfold marketBuy
  repeat' (first | split | dsimp only)
  all_goals intro h
  all_goals first
    | exact ⟨rfl, rfl⟩
    | exact absurd rfl h

/-- Helper: whenever market_sell does not succeed, the positions map and
the persistence flag are untouched. -/

theorem marketSell_not_success_atomic (env : ExecEnv) (symbol : String)
    (positions : String → Option Position)
    (h : (marketSell env symbol positions).outcome ≠ .success) :
    (marketSell env symbol positions).positions = positions ∧
    (marketSell env symbol positions).persisted = false := by
  revert h
  unfold marketSell
  repeat' (first | split | dsimp only)
  all_goals intro h
  all_goals first
    | exact ⟨rfl, rfl⟩
    | exact absurd rfl h

/-- C3: a buy or sell that fails with a kill switch block, a slippage
rejection, no broker response after retries, or a non-positive aggregated
executed quantity leaves the positions map unchanged and persists
nothing. -/

theorem failed_order_atomicity :
    (∀ (env : ExecEnv) (symbol : String) (usdt am ks rr : ℚ) (now : ℤ)
       (positions : String → Option Position),
      ((marketBuy env symbol usdt am ks rr now positions).outcome = .killSwitchBlocked ∨
       (marketBuy env symbol usdt am ks rr now positions).outcome = .slippageBlocked ∨
       (marketBuy env symbol usdt am ks rr now positions).outcome = .noResponse ∨
       (marketBuy env symbol usdt am ks rr now positions).outcome = .zeroExecutedQty) →
      (marketBuy env symbol usdt am ks rr now positions).positions = positions ∧
      (marketBuy env symbol usdt am ks rr now positions).persisted = false) ∧
    (∀ (env : ExecEnv) (symbol : String) (positions : String → Option Position),
      ((marketSell env symbol positions).outcome = .killSwitchBlocked ∨
       (marketSell env symbol positions).outcome = .slippageBlocked ∨
       (marketSell env symbol positions).outcome = .noResponse ∨
       (marketSell env symbol positions).outcome = .zeroExecutedQty) →
      (marketSell env symbol positions).positions = positions ∧
      (marketSell env symbol positions).persisted = false) := by
  constructor
  · intro env symbol usdt am ks rr now positions hd
    refine marketBuy_not_success_atomic env symbol usdt am ks rr now positions ?_
    rcases hd with h | h | h | h <;> rw [h] <;> simp
  · intro env symbol positions hd
    refine marketSell_not_success_atomic env symbol positions ?_
    rcases hd with h | h | h | h <;> rw [h] <;> simp

/-- Witness for failed_order_atomicity: under an armed kill switch a LIVE
buy is blocked and mutates nothing. -/

theorem failed_order_atomicity_witness :
    (marketBuy c3env "BTCUSDT" 10 1 1 (3/2) 0 noPositions).outcome = .killSwitchBlocked ∧
    (marketBuy c3env "BTCUSDT" 10 1 1 (3/2) 0 noPositions).positions = noPositions ∧
    (marketBuy c3env "BTCUSDT" 10 1 1 (3/2) 0 noPositions).persisted = false := by
  have h := failed_order_atomicity.1 c3env "BTCUSDT" 10 1 1 (3/2) 0 noPositions
    (Or.inl rfl)
  exact ⟨rfl, h.1, h.2⟩

end CoinTrading
